import Mathlib

/-!
# Verification of the Gözleme Finder proxy server

Shallow embedding of the decision logic of `server.js` (an Express proxy
for Google Places / Geocoding plus local JSON cache files), together with
the cross-batch fuzzy deduplication of the cache builder, and proofs of
the specified properties.

Conventions of the embedding:

* JavaScript strings are Lean `String`s; `x || y` on strings treats the
  empty string (and `undefined`, modelled as `Option.none`) as falsy.
* `String.prototype.toLowerCase()` is modelled character-wise for the
  alphabet that can occur in the matching logic: ASCII letters plus the
  Turkish/accented uppercase letters Ö É İ Ç Ş Ğ Ü (İ lowercases, as in
  JavaScript/Unicode, to `i` followed by a combining dot above).  All
  other characters are left unchanged.
* `fs.readFileSync` + `JSON.parse` of a local file is modelled by a
  `FileState` value: the file is absent (ENOENT), unparsable, or holds a
  parsed value.
* Each route handler is modelled as a pure function from its parsed
  inputs (request-body fields, file state, parsed upstream response) to
  the JSON value it responds with (and, for the mutating admin endpoint,
  the new file state).
-/

namespace Gozleme

/-! ## JavaScript string primitives -/

/-- One character of `String.prototype.toLowerCase()`, restricted to the
characters relevant here: ASCII `A`–`Z` plus Ö É İ Ç Ş Ğ Ü.  İ (U+0130)
lowercases to `i` followed by U+0307 (combining dot above), exactly as in
JavaScript; every unlisted character is returned unchanged. -/
def jsCharLower (c : Char) : List Char :=
  if c = 'Ö' then ['ö']
  else if c = 'É' then ['é']
  else if c = 'İ' then ['i', Char.ofNat 0x307]
  else if c = 'Ç' then ['ç']
  else if c = 'Ş' then ['ş']
  else if c = 'Ğ' then ['ğ']
  else if c = 'Ü' then ['ü']
  else [c.toLower]

/-- Model of `s.toLowerCase()`. -/
def jsLower (s : String) : String :=
  String.mk ((s.data.map jsCharLower).flatten)

/-- Substring containment on character lists: `need` occurs contiguously
somewhere in `hay`. -/
def strContains (hay need : List Char) : Bool :=
  (List.range (hay.length + 1)).any fun i => need.isPrefixOf (hay.drop i)

/-- JavaScript `hay.includes(need)` — exact substring containment. -/
def jsIncludes (hay need : String) : Bool :=
  strContains hay.data need.data

/-- JavaScript `a || b` for strings where `a` may be `undefined`:
`undefined` and `""` are falsy. -/
def jsOrStr (a : Option String) (b : String) : String :=
  match a with
  | none => b
  | some s => if s = "" then b else s

/-- JavaScript truthiness of an optional string (`undefined` and `""`
are falsy). -/
def truthyStr (a : Option String) : Bool :=
  match a with
  | none => false
  | some s => decide (s ≠ "")

/-! ## Review-keyword relevance filter (`server.js` lines 159–229)

`/api/places-by-review` fetches all nearby restaurants and keeps the
ones one of whose reviews mentions gözleme. -/

/-- The fixed variant list
`const GOZLEME_TERMS = ['gozleme', 'gözleme', 'gozlemé', 'gozlemi', 'gözlemi']`
(`server.js` line 159). -/
def GOZLEME_TERMS : List String :=
  ["gozleme", "gözleme", "gozlemé", "gozlemi", "gözlemi"]

/-- Function `mentionsGozleme` (`server.js` lines 161–165):
```js
function mentionsGozleme(text) {
  if (!text) return false;
  const lower = text.toLowerCase();
  return GOZLEME_TERMS.some(t => lower.includes(t));
}
``` -/
def mentionsGozleme (text : String) : Bool :=
  if text = "" then false
  else GOZLEME_TERMS.any fun t => jsIncludes (jsLower text) t

/-- A review object as consumed by the handler: `r.text?.text` and
`r.originalText?.text`, each possibly absent. -/
structure Review where
  text : Option String
  originalText : Option String
  deriving Repr, DecidableEq

/-- The effective review text `r.text?.text || r.originalText?.text || ''`, used both for matching and as surfaced evidence
(`server.js` lines 221 and 227). -/
def reviewText (r : Review) : String :=
  jsOrStr r.text (jsOrStr r.originalText "")

/-- A place from the `searchNearby` upstream response, reduced to the
fields the filter loop reads: `place.displayName?.text` (flattened to one
optional string), `place.formattedAddress`, and `place.reviews`
(absent reviews modelled as `none`). -/
structure Place where
  displayName : Option String
  formattedAddress : Option String
  reviews : Option (List Review)
  deriving Repr, DecidableEq

/-- The dedup key
`(place.displayName?.text || '') + '|' + (place.formattedAddress || '')`
(`server.js` line 215). -/
def placeKey (p : Place) : String :=
  jsOrStr p.displayName "" ++ "|" ++ jsOrStr p.formattedAddress ""

/-- The first review of `p` whose effective text mentions gözleme:
`(place.reviews || []).find(r => mentionsGozleme(r.text?.text || r.originalText?.text || ''))`
(`server.js` lines 219–222). -/
def matchingReview (p : Place) : Option Review :=
  (p.reviews.getD []).find? fun r => mentionsGozleme (reviewText r)

/-- One entry of the `filtered` output array: the place together with its
`matchedReview` evidence string (`server.js` lines 225–228). -/
structure ResultPlace where
  place : Place
  matchedReview : String
  deriving Repr, DecidableEq

/-- The filter loop of `/api/places-by-review` (`server.js` lines
211–229), with the `seen` key set made explicit:
```js
for (const place of (data.places || [])) {
  const key = (place.displayName?.text || '') + '|' + (place.formattedAddress || '');
  if (seen.has(key)) continue;
  seen.add(key);
  const reviews = place.reviews || [];
  const matchingReview = reviews.find(r => mentionsGozleme(...));
  if (!matchingReview) continue;
  filtered.push({ ...place, matchedReview: ... });
}
``` -/
def filterLoop : List Place → List String → List ResultPlace
  | [], _ => []
  | p :: rest, seen =>
    if placeKey p ∈ seen then
      filterLoop rest seen
    else
      match matchingReview p with
      | none => filterLoop rest (placeKey p :: seen)
      | some r => ⟨p, reviewText r⟩ :: filterLoop rest (placeKey p :: seen)

/-- The `seen` set after the loop has processed a list of places
(mirrors `filterLoop`). -/
def seenAfter : List Place → List String → List String
  | [], seen => seen
  | p :: rest, seen =>
    if placeKey p ∈ seen then seenAfter rest seen
    else seenAfter rest (placeKey p :: seen)

/-- Response body of `/api/places-by-review`, given the parsed upstream
`places` list (`data.places || []` modelled as an optional list):
`{ places: filtered }` (`server.js` line 231). -/
def placesByReview (upstream : Option (List Place)) : List ResultPlace :=
  filterLoop (upstream.getD []) []

/-! ## Cross-batch fuzzy deduplication (spec §4.2, cache builder) -/

/-- Modelled from the spec: the normalized name key of the cache
builder's deduplication (spec §4.2); `cache-builder.js` itself is not
part of the sources, only `server.js` refers to it.  "name lowercased,
all non-alphanumeric characters stripped". -/
def normalizeKey (name : String) : String :=
  String.mk (((jsLower name).data).filter fun c =>
    ('a' ≤ c && c ≤ 'z') || ('0' ≤ c && c ≤ '9'))

/-- Modelled from the spec: the §4.2 duplicate test against one existing
key — "treat it as a duplicate if it exactly equals an existing key OR
if either key is a substring of the other". -/
def dupAgainst (k existing : String) : Bool :=
  existing = k || strContains existing.data k.data || strContains k.data existing.data

/-- Modelled from the spec: the §4.2 accumulation step of
`cache-builder.js` (not in the sources), specialised to the accepted
names.  It keeps a running list of normalized keys; a candidate whose
key duplicates any existing key (equality or substring containment,
either direction) is discarded entirely, otherwise the candidate is kept
and its key added. -/
def dedupNames : List String → List String → List String
  | [], _ => []
  | n :: rest, keys =>
    let k := normalizeKey n
    if keys.any fun e => dupAgainst k e then dedupNames rest keys
    else n :: dedupNames rest (k :: keys)

/-! ## Response plumbing -/

/-- A route handler's JSON response: `res.json(body)` (HTTP 200) or
`res.status(code).json({ error: msg })` — every error response is a
single `error` string. -/
inductive ApiResult (α : Type) where
  | success (body : α)
  | apiError (status : Nat) (message : String)
  deriving Repr, DecidableEq

/-- The observable state of a local JSON file as seen through
`fs.readFileSync` + `JSON.parse`: absent (ENOENT), present but
unparsable, or a parsed value. -/
inductive FileState (α : Type) where
  | absent
  | corrupt
  | ok (data : α)
  deriving Repr, DecidableEq

/-! ## Places text-search proxy: result-count cap
(`server.js` line 104, and line 526 of the second document) -/

/-- The upstream field `maxResultCount: Math.min(parseInt(maxResults, 10) || 20, 20)`.
The argument is the result of `parseInt(maxResults, 10)` on the request
parameter: `none` models `NaN` (unparsable/missing); a parsed `0` is
falsy in JavaScript, so `|| 20` replaces both `NaN` and `0` by 20.
Identical in both versions of the handler. -/
def maxResultCount (parsedMaxResults : Option Int) : Int :=
  min (match parsedMaxResults with
       | none => 20
       | some n => if n = 0 then 20 else n) 20

/-! ## Cache data model (spec §3, `cache.json` / `curated.json`) -/

/-- JavaScript truthiness of an optional boolean field such as
`s.hidden` (absent and `false` are falsy). -/
def truthyBool (a : Option Bool) : Bool :=
  match a with
  | none => false
  | some b => b

/-- A spot record of `cache.json` (spec §3).  Numeric fields carry
opaque integer payloads: their values only pass through the handlers
unchanged, so their representation is irrelevant. -/
structure Spot where
  name : Option String
  area : Option String
  address : Option String
  description : Option String
  tags : List String
  lat : Option Int
  lng : Option Int
  rating : Option Int
  reviewCount : Option Int
  isOpen : Option Bool
  priceLevel : Option Int
  mapsUrl : Option String
  source : Option String
  cachedAt : Option String
  hidden : Option Bool
  deriving Repr, DecidableEq

/-- The parsed content of `cache.json`: `builtAt`, `totalSpots`,
`spots`, each possibly absent. -/
structure CacheFile where
  builtAt : Option String
  totalSpots : Option Nat
  spots : Option (List Spot)
  deriving Repr, DecidableEq

/-- Model of `data.builtAt || null` (`""` is falsy and also becomes `null`). -/
def builtAtOrNull (a : Option String) : Option String :=
  match a with
  | none => none
  | some s => if s = "" then none else some s

/-- Body of a successful `/api/cached-spots` response:
`{ spots, builtAt }`. -/
structure CachedSpotsBody where
  spots : List Spot
  builtAt : Option String
  deriving Repr, DecidableEq

/-- Handler of `/api/cached-spots` (`server.js` lines 241–253): serve `cache.json`
filtering out hidden spots; ENOENT yields `{ spots: [], builtAt: null }`
with success status; any other read/parse failure yields a 500 error. -/
def cachedSpots (fs : FileState CacheFile) : ApiResult CachedSpotsBody :=
  match fs with
  | .absent => .success ⟨[], none⟩
  | .corrupt => .apiError 500 "Failed to load cache: parse error"
  | .ok d =>
    .success ⟨(d.spots.getD []).filter (fun s => !truthyBool s.hidden),
              builtAtOrNull d.builtAt⟩

/-- Body of a successful `/api/admin/spots` response:
`{ spots, builtAt, totalSpots }`. -/
structure AdminSpotsBody where
  spots : List Spot
  builtAt : Option String
  totalSpots : Nat
  deriving Repr, DecidableEq

/-- Handler of `/api/admin/spots` (`server.js` lines 257–267): serve every spot of
`cache.json`, hidden included; ENOENT yields the empty body with
success status; `data.totalSpots || 0`. -/
def adminSpots (fs : FileState CacheFile) : ApiResult AdminSpotsBody :=
  match fs with
  | .absent => .success ⟨[], none, 0⟩
  | .corrupt => .apiError 500 "Failed to load cache: parse error"
  | .ok d => .success ⟨d.spots.getD [], builtAtOrNull d.builtAt, d.totalSpots.getD 0⟩

/-- Body of a successful `/api/curated` response: `{ spots: data }`,
the parsed file content forwarded unvalidated (spec §3: "structurally
similar to Spot but not validated"), hence polymorphic in the entry
type. -/
structure CuratedBody (α : Type) where
  spots : List α
  deriving Repr, DecidableEq

/-- Handler of `/api/curated` (`server.js` lines 309–322): serve `curated.json`
as-is; ENOENT yields `{ spots: [] }` with success status; any other
read/parse failure yields a 500 error. -/
def curated {α : Type} (fs : FileState (List α)) : ApiResult (CuratedBody α) :=
  match fs with
  | .absent => .success ⟨[]⟩
  | .corrupt => .apiError 500 "Failed to load curated spots: parse error"
  | .ok l => .success ⟨l⟩

/-! ## Admin visibility toggle (`server.js` lines 272–297) -/

/-- Body of a successful `/api/admin/toggle` response:
`{ index, hidden, name }`. -/
structure ToggleBody where
  index : Int
  hidden : Bool
  name : Option String
  deriving Repr, DecidableEq

/-- The in-range success path of `/api/admin/toggle`
(`server.js` lines 288–291): the spot's `hidden` flag is negated
(`data.spots[index].hidden = !data.spots[index].hidden`), the whole file
is rewritten, and `{ index, hidden, name }` is returned.  The range
check here is the negation of the guard
`!data.spots || index < 0 || index >= data.spots.length`
(line 284) for a file whose `spots` field is present. -/
def toggleWithSpots (b : Option String) (t : Option Nat) (spots : List Spot)
    (i : Int) : ApiResult ToggleBody × FileState CacheFile :=
  if h : 0 ≤ i ∧ i < (spots.length : Int) then
    let old := spots.get ⟨i.toNat, by omega⟩
    let upd : Spot := { old with hidden := some (!truthyBool old.hidden) }
    (.success ⟨i, !truthyBool old.hidden, old.name⟩,
     .ok ⟨b, t, some (spots.set i.toNat upd)⟩)
  else
    (.apiError 404 ("Spot not found at index " ++ toString i), .ok ⟨b, t, some spots⟩)

/-- Handler of `/api/admin/toggle` on a successfully parsed cache file: a missing
`spots` array is caught by the same guard (`!data.spots`) as an
out-of-range index and yields 404 without writing. -/
def toggleOnFile : CacheFile → Int → ApiResult ToggleBody × FileState CacheFile
  | ⟨b, t, none⟩, i =>
    (.apiError 404 ("Spot not found at index " ++ toString i), .ok ⟨b, t, none⟩)
  | ⟨b, t, some spots⟩, i => toggleWithSpots b t spots i

/-- Handler of `/api/admin/toggle` (`server.js` lines 272–297).  `index` is the
request-body field after the `typeof index !== 'number'` check: `none`
models a missing or non-numeric field (→ 400 before the file is even
read).  With a numeric index, ENOENT → 404; parse failure → 500;
otherwise `toggleOnFile`.  Returns the response together with the
resulting file state; no branch other than the in-range success branch
writes the file. -/
def adminToggle (fs : FileState CacheFile) : Option Int →
    ApiResult ToggleBody × FileState CacheFile
  | none => (.apiError 400 "index is required", fs)
  | some i =>
    match fs with
    | .absent =>
      (.apiError 404 "cache.json not found — run cache-builder.js first", .absent)
    | .corrupt => (.apiError 500 "Failed to update cache: parse error", .corrupt)
    | .ok d => toggleOnFile d i

/-! ## Reverse geocoding (`server.js` lines 364–403) -/

/-- One entry of `result.address_components`. -/
structure AddressComponent where
  long_name : Option String
  short_name : Option String
  types : List String
  deriving Repr, DecidableEq

/-- One entry of `data.results`: its `address_components` (possibly
absent) and its `formatted_address`. -/
structure GeoResult where
  address_components : Option (List AddressComponent)
  formatted_address : String
  deriving Repr, DecidableEq

/-- The parsed upstream geocoding response: `data.status` and
`data.results`. -/
structure GeoData where
  status : String
  results : List GeoResult
  deriving Repr, DecidableEq

/-- JavaScript `a || b` on two optional strings (both may be falsy). -/
def jsOrOpt (a b : Option String) : Option String :=
  if truthyStr a then a else b

/-- The label reduction of `/api/geocode-reverse` (`server.js` lines
383–396) on the first result:
```js
const postal   = components.find(c => c.types.includes('postal_code'));
const neighbourhood = components.find(c =>
  c.types.includes('neighborhood') || c.types.includes('sublocality_level_1'));
const locality = components.find(c => c.types.includes('locality'));
const label = (postal && postal.short_name)
  || (neighbourhood && neighbourhood.long_name)
  || (locality && locality.long_name)
  || result.formatted_address;
```
Split here into the three component lookups and the `||` chain.
This def: `components.find(c => c.types.includes('postal_code'))`. -/
def findPostal (components : List AddressComponent) : Option AddressComponent :=
  components.find? fun c => c.types.contains "postal_code"

/-- Lookup `components.find(c => c.types.includes('neighborhood') || c.types.includes('sublocality_level_1'))`. -/
def findNeighbourhood (components : List AddressComponent) : Option AddressComponent :=
  components.find? fun c =>
    c.types.contains "neighborhood" || c.types.contains "sublocality_level_1"

/-- Lookup `components.find(c => c.types.includes('locality'))`. -/
def findLocality (components : List AddressComponent) : Option AddressComponent :=
  components.find? fun c => c.types.contains "locality"

/-- The `||` chain picking the label. -/
def geoLabel (result : GeoResult) : Option String :=
  jsOrOpt ((findPostal (result.address_components.getD [])).bind
      AddressComponent.short_name)
    (jsOrOpt ((findNeighbourhood (result.address_components.getD [])).bind
        AddressComponent.long_name)
      (jsOrOpt ((findLocality (result.address_components.getD [])).bind
          AddressComponent.long_name)
        (some result.formatted_address)))

/-- Body of a `/api/geocode-reverse` response: `{ label }`. -/
structure GeoLabelBody where
  label : Option String
  deriving Repr, DecidableEq

/-- Handler of `/api/geocode-reverse` from the point where the upstream call
resolved (`server.js` lines 376–402): a transport/parse failure
(`Except.error`) is a 502; with parsed data, a non-`OK` status or an
empty result list yields `{ label: null }` with success status,
otherwise the label reduction of the first result. -/
def geocodeReverse : Except String GeoData → ApiResult GeoLabelBody
  | .error msg => .apiError 502 ("Reverse geocode failed: " ++ msg)
  | .ok data =>
    if data.status ≠ "OK" ∨ data.results = [] then .success ⟨none⟩
    else
      match data.results with
      | [] => .success ⟨none⟩
      | r :: _ => .success ⟨geoLabel r⟩

/-! ## Concrete test fixtures (used only to instantiate theorems) -/

/-- A concrete place with one non-matching and one matching review. -/
def sultanPlace : Place :=
  ⟨some "Sultan Kitchen", some "1 High St",
   some [⟨some "nice bread", none⟩, ⟨none, some "Great GÖZLEME!"⟩]⟩

/-- A spot record with every optional field absent. -/
def blankSpot : Spot :=
  ⟨none, none, none, none, [], none, none, none, none, none, none, none,
   none, none, none⟩

/-- A visible concrete spot. -/
def visSpot : Spot :=
  { blankSpot with name := some "Visible Cafe", area := some "Hackney" }

/-- A hidden concrete spot. -/
def hidSpot : Spot :=
  { blankSpot with name := some "Hidden Cafe", hidden := some true }

/-- A concrete cache file holding one visible and one hidden spot. -/
def cacheFixture : CacheFile :=
  ⟨some "2026-01-01", some 2, some [visSpot, hidSpot]⟩

/-! ## Helper lemmas -/

/-- Every list is a substring of itself. -/
theorem strContains_self (l : List Char) : strContains l l = true := by
  unfold strContains
  rw [List.any_eq_true]
  exact ⟨0, List.mem_range.mpr (Nat.succ_pos _),
    by simp [List.isPrefixOf_iff_prefix]⟩

/-- Unfolding of `mentionsGozleme` to the specified form: the lowercased
text contains some enumerated variant as an exact substring. -/
theorem mentionsGozleme_iff (s : String) :
    mentionsGozleme s = true ↔
      ∃ t ∈ GOZLEME_TERMS, jsIncludes (jsLower s) t = true := by
  unfold mentionsGozleme
  by_cases h : s = ""
  · subst h
    simp only [if_pos rfl, false_iff]
    decide
  · rw [if_neg h, List.any_eq_true]

/-! ## Claim theorems -/

/-- C3: For every value of the `maxResults` request parameter to the
places text-search proxy (modelled after `parseInt`, with `none` for an
unparsable value), the `maxResultCount` sent upstream never exceeds 20,
and for every requested count above 20 it is exactly 20.  This is the
expression at `server.js` line 104 and, identically, line 526 of the
second document. -/
theorem max_result_count_capped (v : Option Int) :
    maxResultCount v ≤ 20 ∧ ∀ n : Int, v = some n → 20 < n → maxResultCount v = 20 := by
  constructor
  · exact min_le_right _ _
  · rintro n rfl hn
    unfold maxResultCount
    have h0 : n ≠ 0 := by omega
    simp only [if_neg h0]
    omega

/-- Witness for C3 at the concrete request value 50. -/
theorem max_result_count_capped_witness :
    maxResultCount (some 50) ≤ 20 ∧ maxResultCount (some 50) = 20 :=
  ⟨(max_result_count_capped (some 50)).1,
   (max_result_count_capped (some 50)).2 50 rfl (by decide)⟩

/-- C5: If the cache file does not exist, `/api/cached-spots` returns a
success response with an empty spot list and a null build timestamp, and
`/api/curated` returns a success response with an empty list; absence of
the file is a success, never an error, on these read endpoints. -/
theorem absent_file_empty_success :
    cachedSpots .absent = .success ⟨[], none⟩ ∧
      curated (α := Spot) .absent = .success ⟨[]⟩ :=
  ⟨rfl, rfl⟩

/-- C9: when the reverse-geocoding upstream reports a non-`OK` status or
an empty result list, `/api/geocode-reverse` responds with success and a
null label, not with an error. -/
theorem reverse_geocode_null_label (d : GeoData)
    (h : d.status ≠ "OK" ∨ d.results = []) :
    geocodeReverse (.ok d) = .success ⟨none⟩ := by
  rw [geocodeReverse, if_pos h]

/-- Witness for C9 at a concrete `ZERO_RESULTS` upstream response. -/
theorem reverse_geocode_null_label_witness :
    geocodeReverse (.ok ⟨"ZERO_RESULTS", []⟩) = .success ⟨none⟩ :=
  reverse_geocode_null_label ⟨"ZERO_RESULTS", []⟩ (Or.inl (by decide))

/-- C2: for every pair of candidate spot names whose normalized keys are
equal or where either key is a substring of the other, the §4.2
deduplication accepts only the first-seen candidate and discards the
second entirely, whichever of the two comes first. -/
theorem dedup_pair_first_wins (a b : String)
    (hdup : normalizeKey a = normalizeKey b ∨
            strContains (normalizeKey b).data (normalizeKey a).data = true ∨
            strContains (normalizeKey a).data (normalizeKey b).data = true) :
    dedupNames [a, b] [] = [a] ∧ dedupNames [b, a] [] = [b] := by
  have hab : dupAgainst (normalizeKey b) (normalizeKey a) = true := by
    unfold dupAgainst
    rcases hdup with h | h | h
    · simp [h]
    · simp [h]
    · simp [h]
  have hba : dupAgainst (normalizeKey a) (normalizeKey b) = true := by
    unfold dupAgainst
    rcases hdup with h | h | h
    · simp [h]
    · simp [h]
    · simp [h]
  constructor
  · simp [dedupNames, hab]
  · simp [dedupNames, hba]

/-- Witness for C2 at the spec's own example pair
`"Cafe Istanbul"` / `"cafe-istanbul!!"` (equal normalized keys). -/
theorem dedup_pair_first_wins_witness :
    dedupNames ["Cafe Istanbul", "cafe-istanbul!!"] [] = ["Cafe Istanbul"] ∧
      dedupNames ["cafe-istanbul!!", "Cafe Istanbul"] [] = ["cafe-istanbul!!"] :=
  dedup_pair_first_wins "Cafe Istanbul" "cafe-istanbul!!" (Or.inl (by decide))

/-- C4: the reverse-geocoding label obeys the fixed preference order —
the postal code component's short name when that is present (non-empty),
otherwise the neighbourhood/sub-locality component's long name,
otherwise the locality component's long name, otherwise the full
formatted address.  The first conjunct applies regardless of any
locality component, which gives the claim's "in particular" case:
with both a postal code and a locality present the postal code's short
name is returned. -/
theorem geo_label_preference (r : GeoResult) :
    (∀ c s, findPostal (r.address_components.getD []) = some c →
        c.short_name = some s → s ≠ "" → geoLabel r = some s) ∧
    (truthyStr ((findPostal (r.address_components.getD [])).bind
        AddressComponent.short_name) = false →
      ∀ c s, findNeighbourhood (r.address_components.getD []) = some c →
        c.long_name = some s → s ≠ "" → geoLabel r = some s) ∧
    (truthyStr ((findPostal (r.address_components.getD [])).bind
        AddressComponent.short_name) = false →
      truthyStr ((findNeighbourhood (r.address_components.getD [])).bind
        AddressComponent.long_name) = false →
      ∀ c s, findLocality (r.address_components.getD []) = some c →
        c.long_name = some s → s ≠ "" → geoLabel r = some s) ∧
    (truthyStr ((findPostal (r.address_components.getD [])).bind
        AddressComponent.short_name) = false →
      truthyStr ((findNeighbourhood (r.address_components.getD [])).bind
        AddressComponent.long_name) = false →
      truthyStr ((findLocality (r.address_components.getD [])).bind
        AddressComponent.long_name) = false →
      geoLabel r = some r.formatted_address) := by
  refine ⟨?_, ?_, ?_, ?_⟩
  · intro c s hc hs hne
    unfold geoLabel jsOrOpt
    rw [hc]
    simp [hs, truthyStr, hne]
  · intro hpostal c s hc hs hne
    unfold geoLabel jsOrOpt
    rw [hc, hpostal]
    simp [hs, truthyStr, hne]
  · intro hpostal hnb c s hc hs hne
    unfold geoLabel jsOrOpt
    rw [hc, hpostal, hnb]
    simp [hs, truthyStr, hne]
  · intro hpostal hnb hloc
    unfold geoLabel jsOrOpt
    rw [hpostal, hnb, hloc]
    simp

/-- Witness for C4 at a concrete result holding both a postal code and a
locality: the postal code's short name wins. -/
theorem geo_label_preference_witness :
    geoLabel ⟨some [⟨some "Hackney", some "E8", ["postal_code"]⟩,
                    ⟨some "London", some "LDN", ["locality"]⟩], "1 Main St, London"⟩ =
      some "E8" :=
  (geo_label_preference
      ⟨some [⟨some "Hackney", some "E8", ["postal_code"]⟩,
             ⟨some "London", some "LDN", ["locality"]⟩], "1 Main St, London"⟩).1
    ⟨some "Hackney", some "E8", ["postal_code"]⟩ "E8" (by decide) rfl (by decide)

/-- The filter loop on a single not-yet-seen place: the place appears
exactly when it has a gözleme-mentioning review, with that review's
effective text as evidence. -/
theorem filterLoop_singleton (p : Place) :
    filterLoop [p] [] =
      match matchingReview p with
      | none => []
      | some r => [⟨p, reviewText r⟩] := by
  cases hm : matchingReview p <;> simp [filterLoop, hm]

/-- C1: the review-keyword relevance filter of `/api/places-by-review`
includes a place if and only if some review's effective text, lowercased,
contains one of the enumerated spelling variants as an exact substring;
a place with an empty or absent review list is excluded; and for an
included place the surfaced `matchedReview` is the effective text of the
first review in list order that matches. -/
theorem review_filter_correct (p : Place) :
    ((∃ res, filterLoop [p] [] = [res]) ↔
      ∃ r ∈ p.reviews.getD [], ∃ t ∈ GOZLEME_TERMS,
        jsIncludes (jsLower (reviewText r)) t = true) ∧
    (p.reviews.getD [] = [] → filterLoop [p] [] = []) ∧
    (∀ res, filterLoop [p] [] = [res] →
      res.place = p ∧
      ∃ r pre post, p.reviews.getD [] = pre ++ r :: post ∧
        mentionsGozleme (reviewText r) = true ∧
        (∀ q ∈ pre, mentionsGozleme (reviewText q) = false) ∧
        res.matchedReview = reviewText r) := by
  refine ⟨⟨?_, ?_⟩, ?_, ?_⟩
  · rintro ⟨res, hres⟩
    rw [filterLoop_singleton] at hres
    cases hm : matchingReview p with
    | none => rw [hm] at hres; exact absurd hres (by simp)
    | some r =>
      have hm' : (p.reviews.getD []).find?
          (fun r => mentionsGozleme (reviewText r)) = some r := hm
      have hmem : r ∈ p.reviews.getD [] := List.mem_of_find?_eq_some hm'
      have hp : mentionsGozleme (reviewText r) = true := by
        have := List.find?_some hm'
        simpa using this
      exact ⟨r, hmem, (mentionsGozleme_iff _).mp hp⟩
  · rintro ⟨r, hr, t, ht, hinc⟩
    have hp : mentionsGozleme (reviewText r) = true :=
      (mentionsGozleme_iff _).mpr ⟨t, ht, hinc⟩
    have : (matchingReview p).isSome := by
      unfold matchingReview
      exact List.find?_isSome.mpr ⟨r, hr, hp⟩
    obtain ⟨r', hr'⟩ := Option.isSome_iff_exists.mp this
    exact ⟨⟨p, reviewText r'⟩, by rw [filterLoop_singleton, hr']⟩
  · intro hempty
    rw [filterLoop_singleton]
    have : matchingReview p = none := by
      unfold matchingReview
      rw [hempty]
      rfl
    rw [this]
  · intro res hres
    cases hm : matchingReview p with
    | none =>
      rw [filterLoop_singleton, hm] at hres
      exact absurd hres (by simp)
    | some r =>
      have hval : filterLoop [p] [] = [⟨p, reviewText r⟩] := by
        rw [filterLoop_singleton, hm]
      have h2 := hval.symm.trans hres
      simp only [List.cons.injEq, and_true] at h2
      have hm' : (p.reviews.getD []).find?
          (fun r => mentionsGozleme (reviewText r)) = some r := hm
      obtain ⟨hp, pre, post, hsplit, hpre⟩ := List.find?_eq_some.mp hm'
      refine ⟨by rw [← h2], r, pre, post, hsplit, hp, ?_, by rw [← h2]⟩
      intro q hq
      have := hpre q hq
      simpa using this

/-- Witness for C1: a concrete place with one non-matching review
followed by one matching review is included, with the matching review's
text surfaced. -/
theorem review_filter_correct_witness :
    (∃ r ∈ sultanPlace.reviews.getD [],
      ∃ t ∈ GOZLEME_TERMS, jsIncludes (jsLower (reviewText r)) t = true) ∧
    (ResultPlace.mk sultanPlace "Great GÖZLEME!").place = sultanPlace :=
  ⟨(review_filter_correct sultanPlace).1.mp
      ⟨ResultPlace.mk sultanPlace "Great GÖZLEME!", by decide⟩,
   ((review_filter_correct sultanPlace).2.2
      (ResultPlace.mk sultanPlace "Great GÖZLEME!") (by decide)).1⟩

/-- C6: on every cache file state, the public `/api/cached-spots`
endpoint returns exactly the spots whose `hidden` flag is not truthy,
in their original order (a sublist of the file's list containing every
non-hidden spot and no hidden one), while `/api/admin/spots` returns
every spot of the file, hidden included. -/
theorem hidden_filter_public_admin (d : CacheFile) :
    ∃ body, cachedSpots (.ok d) = .success body ∧
      body.spots = (d.spots.getD []).filter (fun s => !truthyBool s.hidden) ∧
      List.Sublist body.spots (d.spots.getD []) ∧
      (∀ s ∈ body.spots, truthyBool s.hidden = false) ∧
      (∀ s ∈ d.spots.getD [], truthyBool s.hidden = false → s ∈ body.spots) ∧
      ∃ abody, adminSpots (.ok d) = .success abody ∧ abody.spots = d.spots.getD [] := by
  refine ⟨⟨(d.spots.getD []).filter (fun s => !truthyBool s.hidden),
           builtAtOrNull d.builtAt⟩, rfl, rfl, List.filter_sublist _, ?_, ?_,
          ⟨d.spots.getD [], builtAtOrNull d.builtAt, d.totalSpots.getD 0⟩, rfl, rfl⟩
  · intro s hs
    have := (List.mem_filter.mp hs).2
    simpa using this
  · intro s hs hvis
    exact List.mem_filter.mpr ⟨hs, by simp [hvis]⟩

/-- Witness for C6 at a concrete file with one visible and one hidden
spot: the visible spot is served by the public endpoint. -/
theorem hidden_filter_public_admin_witness :
    ∃ body, cachedSpots (.ok cacheFixture) = .success body ∧
      visSpot ∈ body.spots ∧ body.spots = [visSpot] := by
  obtain ⟨body, h1, h2, -, -, h5, -⟩ := hidden_filter_public_admin cacheFixture
  refine ⟨body, h1, h5 visSpot (by decide) (by decide), ?_⟩
  rw [h2]
  decide

/-- C7: for every cache file whose `spots` list is present and every
in-range index, the admin toggle succeeds, negates exactly the `hidden`
flag of the spot at that index, and leaves every other field of that
spot, every other spot, and the file's `builtAt` and `totalSpots`
unchanged in the rewritten file. -/
theorem toggle_frame (d : CacheFile) (spots : List Spot) (i : Int)
    (hs : d.spots = some spots) (h0 : 0 ≤ i) (hl : i < (spots.length : Int)) :
    ∃ o newSpots,
      spots[i.toNat]? = some o ∧
      adminToggle (.ok d) (some i) =
        (.success ⟨i, !truthyBool o.hidden, o.name⟩,
         .ok ⟨d.builtAt, d.totalSpots, some newSpots⟩) ∧
      newSpots.length = spots.length ∧
      (∀ j : Nat, j ≠ i.toNat → newSpots[j]? = spots[j]?) ∧
      ∃ s', newSpots[i.toNat]? = some s' ∧
        s'.hidden = some (!truthyBool o.hidden) ∧
        s'.name = o.name ∧ s'.area = o.area ∧ s'.address = o.address ∧
        s'.description = o.description ∧ s'.tags = o.tags ∧ s'.lat = o.lat ∧
        s'.lng = o.lng ∧ s'.rating = o.rating ∧ s'.reviewCount = o.reviewCount ∧
        s'.isOpen = o.isOpen ∧ s'.priceLevel = o.priceLevel ∧
        s'.mapsUrl = o.mapsUrl ∧ s'.source = o.source ∧ s'.cachedAt = o.cachedAt := by
  obtain ⟨b, t, sp⟩ := d
  simp only at hs
  subst hs
  have hn : i.toNat < spots.length := by omega
  have hget : spots[i.toNat]? = some spots[i.toNat] := List.getElem?_eq_getElem hn
  refine ⟨spots[i.toNat],
    spots.set i.toNat
      { spots[i.toNat] with hidden := some (!truthyBool spots[i.toNat].hidden) },
    hget, ?_, by simp, ?_, ?_⟩
  · show toggleWithSpots b t spots i = _
    unfold toggleWithSpots
    rw [dif_pos ⟨h0, hl⟩]
    rfl
  · intro j hj
    exact List.getElem?_set_ne (fun h => hj h.symm)
  · refine ⟨_, List.getElem?_set_self hn, rfl, rfl, rfl, rfl, rfl, rfl, rfl,
      rfl, rfl, rfl, rfl, rfl, rfl, rfl, rfl⟩

/-- Witness for C7: toggling index 1 of the concrete two-spot file. -/
theorem toggle_frame_witness :
    ∃ o newSpots,
      (cacheFixture.spots.getD [])[(1 : Int).toNat]? = some o ∧
      adminToggle (.ok cacheFixture) (some 1) =
        (.success ⟨1, !truthyBool o.hidden, o.name⟩,
         .ok ⟨cacheFixture.builtAt, cacheFixture.totalSpots, some newSpots⟩) := by
  obtain ⟨o, newSpots, h1, h2, -⟩ :=
    toggle_frame cacheFixture [visSpot, hidSpot] 1 (by decide) (by decide) (by decide)
  exact ⟨o, newSpots, h1, h2⟩

/-- C8: the admin toggle returns a 400 error (single `error` string)
when the `index` field is missing or not a number, and a 404 error when
the cache file does not exist or the index is out of range for the spot
list (including a missing `spots` field); in every such error case the
cache file is left unchanged. -/
theorem toggle_errors :
    (∀ fs : FileState CacheFile,
      adminToggle fs none = (.apiError 400 "index is required", fs)) ∧
    (∀ i : Int, adminToggle .absent (some i) =
      (.apiError 404 "cache.json not found — run cache-builder.js first",
       .absent)) ∧
    (∀ (d : CacheFile) (spots : List Spot) (i : Int), d.spots = some spots →
      (i < 0 ∨ (spots.length : Int) ≤ i) →
      adminToggle (.ok d) (some i) =
        (.apiError 404 ("Spot not found at index " ++ toString i), .ok d)) ∧
    (∀ (d : CacheFile) (i : Int), d.spots = none →
      adminToggle (.ok d) (some i) =
        (.apiError 404 ("Spot not found at index " ++ toString i), .ok d)) := by
  refine ⟨fun fs => rfl, fun i => rfl, ?_, ?_⟩
  · intro d spots i hs hrange
    obtain ⟨b, t, sp⟩ := d
    simp only at hs
    subst hs
    show toggleWithSpots b t spots i = _
    unfold toggleWithSpots
    rw [dif_neg (by omega)]
  · intro d i hs
    obtain ⟨b, t, sp⟩ := d
    simp only at hs
    subst hs
    rfl

/-- Witness for C8: missing index on the concrete file, a numeric index
on an absent file, and an out-of-range index on the concrete file, each
leaving the file untouched. -/
theorem toggle_errors_witness :
    adminToggle (.ok cacheFixture) none =
      (.apiError 400 "index is required", .ok cacheFixture) ∧
    adminToggle .absent (some 0) =
      (.apiError 404 "cache.json not found — run cache-builder.js first",
       .absent) ∧
    adminToggle (.ok cacheFixture) (some 5) =
      (.apiError 404 "Spot not found at index 5", .ok cacheFixture) :=
  ⟨toggle_errors.1 (.ok cacheFixture), toggle_errors.2.1 0,
   toggle_errors.2.2.1 cacheFixture [visSpot, hidSpot] 5 (by decide)
     (Or.inr (by decide))⟩

/-- The filter loop splits over list append, threading the seen set. -/
theorem filterLoop_append (xs ys : List Place) (seen : List String) :
    filterLoop (xs ++ ys) seen =
      filterLoop xs seen ++ filterLoop ys (seenAfter xs seen) := by
  induction xs generalizing seen with
  | nil => rfl
  | cons p rest ih =>
    by_cases h : placeKey p ∈ seen
    · simp [filterLoop, seenAfter, h, ih]
    · cases hm : matchingReview p <;>
        simp [filterLoop, seenAfter, h, hm, ih]

/-- The seen set splits over list append. -/
theorem seenAfter_append (xs ys : List Place) (seen : List String) :
    seenAfter (xs ++ ys) seen = seenAfter ys (seenAfter xs seen) := by
  induction xs generalizing seen with
  | nil => rfl
  | cons p rest ih =>
    by_cases h : placeKey p ∈ seen <;> simp [seenAfter, h, ih]

/-- The seen set only grows. -/
theorem mem_seenAfter (k : String) (xs : List Place) (seen : List String)
    (h : k ∈ seen) : k ∈ seenAfter xs seen := by
  induction xs generalizing seen with
  | nil => exact h
  | cons p rest ih =>
    by_cases hp : placeKey p ∈ seen
    · simpa [seenAfter, hp] using ih seen h
    · simp only [seenAfter, if_neg hp]
      exact ih _ (List.mem_cons_of_mem _ h)

/-- After the loop has processed a place, its key is in the seen set. -/
theorem key_mem_seenAfter_cons (p : Place) (xs : List Place)
    (seen : List String) : placeKey p ∈ seenAfter (p :: xs) seen := by
  by_cases hp : placeKey p ∈ seen
  · simpa [seenAfter, hp] using mem_seenAfter _ xs seen hp
  · simp only [seenAfter, if_neg hp]
    exact mem_seenAfter _ xs _ (List.mem_cons_self _ _)

/-- A place whose key is already seen contributes nothing and changes
nothing. -/
theorem filterLoop_cons_of_seen (p : Place) (xs : List Place)
    (seen : List String) (h : placeKey p ∈ seen) :
    filterLoop (p :: xs) seen = filterLoop xs seen := by
  simp [filterLoop, h]

/-- Invariant of the filter loop: no emitted key is in the incoming seen
set, and the emitted keys are pairwise distinct. -/
theorem filterLoop_keys_nodup (xs : List Place) (seen : List String) :
    (∀ r ∈ filterLoop xs seen, placeKey r.place ∉ seen) ∧
      ((filterLoop xs seen).map fun r => placeKey r.place).Nodup := by
  induction xs generalizing seen with
  | nil => exact ⟨by simp [filterLoop], by simp [filterLoop]⟩
  | cons p rest ih =>
    by_cases h : placeKey p ∈ seen
    · rw [filterLoop_cons_of_seen p rest seen h]
      exact ih seen
    · cases hm : matchingReview p with
      | none =>
        rw [show filterLoop (p :: rest) seen = filterLoop rest (placeKey p :: seen)
            from by simp [filterLoop, h, hm]]
        refine ⟨?_, (ih _).2⟩
        intro r hr
        exact fun hmem => (ih _).1 r hr (List.mem_cons_of_mem _ hmem)
      | some mr =>
        rw [show filterLoop (p :: rest) seen =
            ⟨p, reviewText mr⟩ :: filterLoop rest (placeKey p :: seen)
            from by simp [filterLoop, h, hm]]
        constructor
        · intro r hr
          rcases List.mem_cons.mp hr with rfl | hr'
          · exact h
          · exact fun hmem => (ih _).1 r hr' (List.mem_cons_of_mem _ hmem)
        · rw [List.map_cons, List.nodup_cons]
          refine ⟨?_, (ih _).2⟩
          intro hmem
          obtain ⟨r, hr, hkey⟩ := List.mem_map.mp hmem
          exact (ih _).1 r hr (hkey ▸ List.mem_cons_self _ _)

/-- C10: the list returned by `/api/places-by-review` contains at most
one entry per (display-name text, formatted address) key — the emitted
keys are pairwise distinct — and a place whose exact key already
occurred earlier in the upstream list is dropped outright: deleting such
a later duplicate from the upstream list leaves the response unchanged,
whatever its reviews say. -/
theorem places_by_review_dedup (places : List Place) :
    ((placesByReview (some places)).map fun r => placeKey r.place).Nodup ∧
    (∀ l₁ p₁ l₂ p₂ l₃, places = l₁ ++ p₁ :: (l₂ ++ p₂ :: l₃) →
      placeKey p₂ = placeKey p₁ →
      placesByReview (some places) =
        placesByReview (some (l₁ ++ p₁ :: (l₂ ++ l₃)))) := by
  constructor
  · exact (filterLoop_keys_nodup places []).2
  · rintro l₁ p₁ l₂ p₂ l₃ rfl hkey
    unfold placesByReview
    simp only [Option.getD_some]
    have hassoc₁ : l₁ ++ p₁ :: (l₂ ++ p₂ :: l₃) =
        (l₁ ++ p₁ :: l₂) ++ (p₂ :: l₃) := by simp
    have hassoc₂ : l₁ ++ p₁ :: (l₂ ++ l₃) = (l₁ ++ p₁ :: l₂) ++ l₃ := by simp
    rw [hassoc₁, hassoc₂, filterLoop_append, filterLoop_append]
    have hmem : placeKey p₂ ∈ seenAfter (l₁ ++ p₁ :: l₂) [] := by
      rw [seenAfter_append, hkey]
      exact key_mem_seenAfter_cons p₁ l₂ _
    rw [filterLoop_cons_of_seen p₂ l₃ _ hmem,
      filterLoop_append (l₁ ++ p₁ :: l₂) l₃ [],
      filterLoop_append l₁ (p₁ :: l₂) []]

/-- Witness for C10: a concrete upstream list where the second place
repeats the first place's name and address and has a matching review,
yet the response is the same as if it were absent. -/
theorem places_by_review_dedup_witness :
    placesByReview (some [⟨some "A", some "addr", none⟩,
      ⟨some "A", some "addr", some [⟨some "great gozleme", none⟩]⟩]) =
      placesByReview (some [⟨some "A", some "addr", none⟩]) :=
  (places_by_review_dedup [⟨some "A", some "addr", none⟩,
      ⟨some "A", some "addr", some [⟨some "great gozleme", none⟩]⟩]).2
    [] ⟨some "A", some "addr", none⟩ []
    ⟨some "A", some "addr", some [⟨some "great gozleme", none⟩]⟩ []
    (by decide) (by decide)

end Gozleme
